import Mathlib

/-!
Shallow embedding of the core game logic of `src/worm.py` (a grid worm
game): the data model (`LevelState`), food placement (`random_food`),
direction handling (`opposite_direction`, `handle_direction_change`),
level derivation (`start_level`) and the tick engine (`move_snake`).

Python `deque` values of grid positions are modelled as `List (Int × Int)`
with the tail first and the head last, matching the source order.
Mutation of the `LevelState` dataclass is modelled by returning the
updated state.  The calls to `random.choice` are modelled by threading an
arbitrary `pick : Nat` that selects an index into the candidate list;
every theorem below is quantified over all values of `pick`.
-/

namespace Worm

/-- A grid cell `(row, column)`, as in `Position = Tuple[int, int]`. -/
abbrev Position : Type := Int × Int

/-- A direction vector `(dy, dx)`, as in `Vector = Tuple[int, int]`. -/
abbrev Vec : Type := Int × Int

-- Window and grid sizing.
def WINDOW_WIDTH : Nat := 960
def WINDOW_HEIGHT : Nat := 640
def CELL_SIZE : Nat := 20
def GRID_WIDTH : Nat := WINDOW_WIDTH / CELL_SIZE
def GRID_HEIGHT : Nat := WINDOW_HEIGHT / CELL_SIZE

-- Speed options.
def SPEED_MIN : Int := 1
def SPEED_MAX : Int := 100
def DEFAULT_SPEED : Int := 20
def LEVEL_SPEED_STEP : Int := 5

-- Level progression.
def BASE_TARGET : Int := 6
def TARGET_GROWTH : Int := 2

-- pygame key codes (SDL2 values of K_UP, K_DOWN, K_LEFT, K_RIGHT).
def K_UP : Int := 1073741906
def K_DOWN : Int := 1073741905
def K_LEFT : Int := 1073741904
def K_RIGHT : Int := 1073741903

/-- The `VECTORS` key-to-direction table, as a partial map on key codes. -/
def VECTORS (key : Int) : Option Vec :=
  if key = K_UP then some (-1, 0)
  else if key = K_DOWN then some (1, 0)
  else if key = K_LEFT then some (0, -1)
  else if key = K_RIGHT then some (0, 1)
  else none

/-- The `LevelState` dataclass. `snake` is tail-first, head-last. -/
structure LevelState where
  snake : List Position
  direction : Vec
  pending_direction : Vec
  food : Position
  eaten : Int
  target : Int
  speed : Int
  move_interval_ms : ℚ
  move_accumulator : ℚ
deriving Repr, DecidableEq

/-- `initialize_worm`: the initial worm centered on the grid. -/
def initialize_worm (length : Nat := 5) : List Position :=
  let center_y : Int := GRID_HEIGHT / 2
  let center_x : Int := GRID_WIDTH / 2
  let start_x : Int := max 1 (center_x - length / 2)
  (List.range length).map (fun i => (center_y, start_x + i))

/-- The candidate list built by the comprehension inside `random_food`:
all strictly interior cells (`y` in `range(1, GRID_HEIGHT - 1)`, `x` in
`range(1, GRID_WIDTH - 1)`) that are not occupied, in source order. -/
def availablePositions (occupied : List Position) : List Position :=
  (List.range' 1 (GRID_HEIGHT - 2)).flatMap (fun (y : Nat) =>
    (List.range' 1 (GRID_WIDTH - 2)).filterMap (fun (x : Nat) =>
      if ((y : Int), (x : Int)) ∈ occupied then none
      else some ((y : Int), (x : Int))))

/-- `random_food`: a food position not currently occupied by the worm,
or the sentinel `(-1, -1)` when no interior cell is free.  `pick`
models the index chosen by `random.choice`. -/
def random_food (pick : Nat) (occupied : List Position) : Position :=
  let available_positions := availablePositions occupied
  if available_positions.isEmpty then (-1, -1)
  else available_positions.getD (pick % available_positions.length) (-1, -1)

/-- `opposite_direction`: componentwise negation test. -/
def opposite_direction (current candidate : Vec) : Bool :=
  current.1 == -candidate.1 && current.2 == -candidate.2

/-- `handle_direction_change`: buffer a new pending direction unless the
candidate is the exact opposite of the active direction. -/
def handle_direction_change (level : LevelState) (key : Int) : LevelState :=
  match VECTORS key with
  | none => level
  | some candidate =>
      if opposite_direction level.direction candidate then level
      else { level with pending_direction := candidate }

/-- `start_level`: fresh level state for a given level index and base
speed (`pick` models the `random.choice` inside `random_food`). -/
def start_level (pick : Nat) (level : Int) (base_speed : Int) : LevelState :=
  let snake := initialize_worm
  let direction : Vec := (0, 1)
  let speed := min SPEED_MAX (base_speed + (level - 1) * LEVEL_SPEED_STEP)
  let target := BASE_TARGET + (level - 1) * TARGET_GROWTH
  { snake := snake
    direction := direction
    pending_direction := direction
    food := random_food pick snake
    eaten := 0
    target := target
    speed := speed
    move_interval_ms := 1000 / (speed : ℚ)
    move_accumulator := 0 }

/-- The next head cell: `snake[-1] + pending_direction` (the source reads
`level.snake[-1]`, which assumes a nonempty worm; the default `(0, 0)`
is never used under the worm-nonempty hypothesis of the theorems). -/
def next_head (level : LevelState) : Position :=
  let head := level.snake.getLastD (0, 0)
  (head.1 + level.pending_direction.1, head.2 + level.pending_direction.2)

/-- `move_snake`: advance the snake one cell.
Returns the updated state together with `(alive, ate_food)`. -/
def move_snake (pick : Nat) (level : LevelState) : LevelState × Bool × Bool :=
  let new_head := next_head level
  -- Wall collisions.
  if new_head.1 < 0 ∨ new_head.1 ≥ (GRID_HEIGHT : Int)
      ∨ new_head.2 < 0 ∨ new_head.2 ≥ (GRID_WIDTH : Int) then
    (level, false, false)
  -- Self collision.
  else if new_head ∈ level.snake then
    (level, false, false)
  else
    let snake1 := level.snake ++ [new_head]
    let ate_food : Bool := new_head == level.food
    if ate_food then
      ({ level with
          snake := snake1
          eaten := level.eaten + 1
          food := random_food pick snake1
          direction := level.pending_direction }, true, true)
    else
      ({ level with
          snake := snake1.drop 1
          direction := level.pending_direction }, true, false)

/-- The Grid Model in-bounds predicate: `0 ≤ row < H` and `0 ≤ col < W`. -/
def in_bounds (p : Position) : Prop :=
  0 ≤ p.1 ∧ p.1 < (GRID_HEIGHT : Int) ∧ 0 ≤ p.2 ∧ p.2 < (GRID_WIDTH : Int)

instance (p : Position) : Decidable (in_bounds p) := by
  unfold in_bounds; infer_instance

/-- A cell is strictly interior when its row lies in `[1, GRID_HEIGHT - 2]`
and its column lies in `[1, GRID_WIDTH - 2]` (the one-cell border is
reserved), matching the ranges scanned by `random_food`. -/
def strictly_interior (p : Position) : Prop :=
  1 ≤ p.1 ∧ p.1 ≤ (GRID_HEIGHT : Int) - 2 ∧ 1 ≤ p.2 ∧ p.2 ≤ (GRID_WIDTH : Int) - 2

instance (p : Position) : Decidable (strictly_interior p) := by
  unfold strictly_interior; infer_instance

/-! ### Helper lemmas about food placement -/

theorem mem_availablePositions {occupied : List Position} {p : Position} :
    p ∈ availablePositions occupied ↔ strictly_interior p ∧ p ∉ occupied := by
  have hH : GRID_HEIGHT = 32 := rfl
  have hW : GRID_WIDTH = 48 := rfl
  unfold availablePositions strictly_interior
  rw [hH, hW]
  simp only [List.mem_flatMap, List.mem_filterMap, List.mem_range'_1]
  constructor
  · rintro ⟨y, hy, x, hx, hif⟩
    by_cases hocc : ((y : Int), (x : Int)) ∈ occupied
    · rw [if_pos hocc] at hif
      exact absurd hif (by simp)
    · rw [if_neg hocc] at hif
      obtain rfl := Option.some.inj hif
      refine ⟨⟨by omega, by omega, by omega, by omega⟩, hocc⟩
  · rintro ⟨⟨h1, h2, h3, h4⟩, hocc⟩
    refine ⟨p.1.toNat, by omega, p.2.toNat, by omega, ?_⟩
    have hp : ((p.1.toNat : Int), (p.2.toNat : Int)) = p := by
      have := Int.toNat_of_nonneg (le_trans (by omega) h1)
      have := Int.toNat_of_nonneg (le_trans (by omega) h3)
      exact Prod.ext (by omega) (by omega)
    rw [hp, if_neg hocc]

theorem availablePositions_nodup (occupied : List Position) :
    (availablePositions occupied).Nodup := by
  unfold availablePositions
  refine List.nodup_flatMap.2 ⟨?_, ?_⟩
  · intro y _
    refine List.Nodup.filterMap ?_ (List.nodup_range' _ _)
    intro a a' b hb hb'
    by_cases h1 : ((y : Int), (a : Int)) ∈ occupied
    · rw [if_pos h1] at hb; simp at hb
    · rw [if_neg h1] at hb
      by_cases h2 : ((y : Int), (a' : Int)) ∈ occupied
      · rw [if_pos h2] at hb'; simp at hb'
      · rw [if_neg h2] at hb'
        simp only [Option.mem_def, Option.some.injEq] at hb hb'
        have : ((y : Int), (a : Int)) = ((y : Int), (a' : Int)) := by rw [hb, hb']
        have := congrArg Prod.snd this
        simpa using this
  · refine List.Pairwise.imp ?_ (List.nodup_range' 1 (GRID_HEIGHT - 2) 1 (by omega))
    intro y y' hne p hp hp'
    simp only [List.mem_filterMap] at hp hp'
    obtain ⟨x, _, hif⟩ := hp
    obtain ⟨x', _, hif'⟩ := hp'
    by_cases h1 : ((y : Int), (x : Int)) ∈ occupied
    · rw [if_pos h1] at hif; exact absurd hif (by simp)
    · rw [if_neg h1] at hif
      by_cases h2 : ((y' : Int), (x' : Int)) ∈ occupied
      · rw [if_pos h2] at hif'; exact absurd hif' (by simp)
      · rw [if_neg h2] at hif'
        obtain rfl := Option.some.inj hif
        have := congrArg Prod.fst (Option.some.inj hif')
        simp only at this
        exact hne (by exact_mod_cast this.symm)

theorem random_food_cases (pick : Nat) (occupied : List Position) :
    (availablePositions occupied = [] ∧ random_food pick occupied = (-1, -1)) ∨
    (availablePositions occupied ≠ [] ∧
      random_food pick occupied ∈ availablePositions occupied) := by
  unfold random_food
  by_cases h : (availablePositions occupied).isEmpty
  · rw [List.isEmpty_iff] at h
    left
    simp [h]
  · right
    rw [List.isEmpty_iff] at h
    refine ⟨h, ?_⟩
    rw [if_neg (by simpa [List.isEmpty_iff] using h)]
    have hlen : 0 < (availablePositions occupied).length :=
      List.length_pos.mpr h
    have hlt : pick % (availablePositions occupied).length
        < (availablePositions occupied).length := Nat.mod_lt _ hlen
    rw [List.getD_eq_getElem _ _ hlt]
    exact List.getElem_mem hlt

theorem eq_singleton_of_nodup_of_mem_iff {α : Type*} {l : List α} {c : α}
    (hn : l.Nodup) (h : ∀ x, x ∈ l ↔ x = c) : l = [c] := by
  cases l with
  | nil => exact absurd ((h c).mpr rfl) (List.not_mem_nil c)
  | cons a t =>
      obtain rfl : a = c := (h a).mp (List.mem_cons_self a t)
      have ht : t = [] := by
        rw [List.eq_nil_iff_forall_not_mem]
        intro b hb
        obtain rfl : b = a := (h b).mp (List.mem_cons_of_mem _ hb)
        exact (List.nodup_cons.mp hn).1 hb
      rw [ht]

/-! ### Helper lemmas about the tick engine -/

theorem not_in_bounds_iff (p : Position) :
    ¬ in_bounds p ↔
      (p.1 < 0 ∨ p.1 ≥ (GRID_HEIGHT : Int) ∨ p.2 < 0 ∨ p.2 ≥ (GRID_WIDTH : Int)) := by
  unfold in_bounds
  omega

/-- Closed-form case analysis of `move_snake`: wall collision, self
collision, food-eating tick, and plain movement tick. -/
theorem move_snake_eq (pick : Nat) (level : LevelState) :
    move_snake pick level =
      if ¬ in_bounds (next_head level) then (level, false, false)
      else if next_head level ∈ level.snake then (level, false, false)
      else if next_head level = level.food then
        ({ level with
            snake := level.snake ++ [next_head level]
            eaten := level.eaten + 1
            food := random_food pick (level.snake ++ [next_head level])
            direction := level.pending_direction }, true, true)
      else
        ({ level with
            snake := (level.snake ++ [next_head level]).drop 1
            direction := level.pending_direction }, true, false) := by
  simp only [move_snake, beq_iff_eq]
  unfold in_bounds
  split_ifs <;> first | rfl | (exfalso; omega)

/-! ### Concrete states used as witnesses -/

/-- Worm of length 2 about to move right into the free cell `(5, 7)`. -/
def sampleMove : LevelState :=
  { snake := [(5, 5), (5, 6)]
    direction := (0, 1)
    pending_direction := (0, 1)
    food := (2, 2)
    eaten := 0
    target := 6
    speed := 20
    move_interval_ms := 50
    move_accumulator := 0 }

/-- Same worm, but the food sits directly ahead at `(5, 7)`. -/
def sampleEat : LevelState :=
  { sampleMove with food := (5, 7) }

/-- A coiled worm whose next head cell `(5, 6)` is in bounds but already
occupied by its own body. -/
def sampleSelf : LevelState :=
  { sampleMove with
      snake := [(5, 6), (5, 5), (6, 5), (6, 6)]
      pending_direction := (-1, 0) }

/-- A worm at the left wall about to step out of bounds to `(0, -1)`. -/
def sampleWall : LevelState :=
  { sampleMove with
      snake := [(0, 1), (0, 0)]
      pending_direction := (0, -1) }

/-! ### Claim theorems -/

/-- C1 (counterexample to the claim as stated): on a coiled worm whose
next head cell is in bounds but lies on its own body, `move_snake`
returns Collided even though the next head cell is not out of bounds, so
"returns Collided exactly when the next head cell is out of bounds" is
false as a biconditional. -/
theorem collided_inbounds_counterexample :
    ¬ (((move_snake 0 sampleSelf).2.1 = false) ↔ ¬ in_bounds (next_head sampleSelf)) := by
  decide

/-- C1 (amended): `move_snake` returns Collided whenever the next head
cell — head plus the pending-direction vector — has row outside
`[0, GRID_HEIGHT)` or column outside `[0, GRID_WIDTH)`; consequently,
whenever it returns Alive, the new head cell is inside grid bounds. -/
theorem wall_collision_and_alive_in_bounds (pick : Nat) (level : LevelState) :
    (¬ in_bounds (next_head level) → (move_snake pick level).2.1 = false) ∧
    ((move_snake pick level).2.1 = true → in_bounds (next_head level)) := by
  rw [move_snake_eq]
  by_cases hb : in_bounds (next_head level)
  · exact ⟨fun h => absurd hb h, fun _ => hb⟩
  · rw [if_pos hb]
    exact ⟨fun _ => rfl, fun h => by simp at h⟩

theorem wall_collision_and_alive_in_bounds_witness :
    (move_snake 0 sampleWall).2.1 = false ∧ in_bounds (next_head sampleMove) :=
  ⟨(wall_collision_and_alive_in_bounds 0 sampleWall).1 (by decide),
   (wall_collision_and_alive_in_bounds 0 sampleMove).2 (by decide)⟩

/-- C2: for every LevelState whose new head cell is in bounds,
`move_snake` returns Collided if and only if the new head cell is
already a member of the worm's current cell sequence (the whole
sequence, tail included, since membership is tested before any tail
removal). -/
theorem self_collision_iff_mem (pick : Nat) (level : LevelState)
    (_hne : level.snake ≠ []) (hb : in_bounds (next_head level)) :
    ((move_snake pick level).2.1 = false ↔ next_head level ∈ level.snake) := by
  rw [move_snake_eq, if_neg (not_not_intro hb)]
  by_cases hm : next_head level ∈ level.snake
  · rw [if_pos hm]
    simpa using hm
  · rw [if_neg hm]
    by_cases hf : next_head level = level.food
    · rw [if_pos hf]
      simpa using hm
    · rw [if_neg hf]
      simpa using hm

theorem self_collision_iff_mem_witness :
    ((move_snake 0 sampleSelf).2.1 = false ↔ next_head sampleSelf ∈ sampleSelf.snake) :=
  self_collision_iff_mem 0 sampleSelf (by decide) (by decide)

/-- C9: whenever `move_snake` returns Alive, the active direction after
the call equals the pending direction that was used to compute the move. -/
theorem direction_commit (pick : Nat) (level : LevelState)
    (_hne : level.snake ≠ []) (ha : (move_snake pick level).2.1 = true) :
    (move_snake pick level).1.direction = level.pending_direction := by
  rw [move_snake_eq] at ha ⊢
  by_cases hb : in_bounds (next_head level)
  · rw [if_neg (not_not_intro hb)] at ha ⊢
    by_cases hm : next_head level ∈ level.snake
    · rw [if_pos hm] at ha
      simp at ha
    · rw [if_neg hm] at ha ⊢
      by_cases hf : next_head level = level.food
      · rw [if_pos hf]
      · rw [if_neg hf]
  · rw [if_pos hb] at ha
    simp at ha

theorem direction_commit_witness :
    (move_snake 0 sampleMove).1.direction = sampleMove.pending_direction :=
  direction_commit 0 sampleMove (by decide) (by decide)

/-- C10: whenever `move_snake` returns not-alive (wall or self
collision), the entire LevelState is returned unchanged — worm sequence,
food cell, eaten counter, active direction and pending direction all
keep their pre-call values. -/
theorem collision_preserves_state (pick : Nat) (level : LevelState)
    (_hne : level.snake ≠ []) (ha : (move_snake pick level).2.1 = false) :
    (move_snake pick level).1 = level := by
  rw [move_snake_eq] at ha ⊢
  by_cases hb : in_bounds (next_head level)
  · rw [if_neg (not_not_intro hb)] at ha ⊢
    by_cases hm : next_head level ∈ level.snake
    · rw [if_pos hm]
    · rw [if_neg hm] at ha ⊢
      by_cases hf : next_head level = level.food
      · rw [if_pos hf] at ha
        simp at ha
      · rw [if_neg hf] at ha
        simp at ha
  · rw [if_pos hb]

theorem collision_preserves_state_witness :
    (move_snake 0 sampleSelf).1 = sampleSelf :=
  collision_preserves_state 0 sampleSelf (by decide) (by decide)

/-- C3: on every Alive tick, the `ate_food` flag is true exactly when
the new head equals the food cell; eating grows the worm by exactly one
at the head with no tail removal, while not eating removes the tail
cell and keeps the length unchanged. -/
theorem growth_and_tail_removal (pick : Nat) (level : LevelState)
    (hne : level.snake ≠ []) (ha : (move_snake pick level).2.1 = true) :
    ((move_snake pick level).2.2 = true ↔ next_head level = level.food) ∧
    (next_head level = level.food →
      (move_snake pick level).1.snake = level.snake ++ [next_head level] ∧
      (move_snake pick level).1.snake.length = level.snake.length + 1) ∧
    (next_head level ≠ level.food →
      (move_snake pick level).2.2 = false ∧
      (move_snake pick level).1.snake = level.snake.tail ++ [next_head level] ∧
      (move_snake pick level).1.snake.length = level.snake.length) := by
  rw [move_snake_eq] at ha ⊢
  by_cases hb : in_bounds (next_head level)
  · rw [if_neg (not_not_intro hb)] at ha ⊢
    by_cases hm : next_head level ∈ level.snake
    · rw [if_pos hm] at ha
      simp at ha
    · rw [if_neg hm] at ha ⊢
      by_cases hf : next_head level = level.food
      · rw [if_pos hf]
        refine ⟨by simpa using hf, fun _ => ⟨rfl, by simp⟩, fun h => absurd hf h⟩
      · rw [if_neg hf]
        have h1 : 1 ≤ level.snake.length := List.length_pos.mpr hne
        refine ⟨by simpa using hf, fun h => absurd h hf, fun _ => ⟨rfl, ?_, ?_⟩⟩
        · simp only
          rw [List.drop_append_of_le_length h1, List.drop_one]
        · simp only [List.length_drop, List.length_append, List.length_cons,
            List.length_nil]
          omega
  · rw [if_pos hb] at ha
    simp at ha

theorem growth_and_tail_removal_witness :
    ((move_snake 0 sampleEat).1.snake = sampleEat.snake ++ [next_head sampleEat] ∧
      (move_snake 0 sampleEat).1.snake.length = sampleEat.snake.length + 1) ∧
    ((move_snake 0 sampleMove).2.2 = false ∧
      (move_snake 0 sampleMove).1.snake = sampleMove.snake.tail ++ [next_head sampleMove] ∧
      (move_snake 0 sampleMove).1.snake.length = sampleMove.snake.length) :=
  ⟨(growth_and_tail_removal 0 sampleEat (by decide) (by decide)).2.1 (by decide),
   (growth_and_tail_removal 0 sampleMove (by decide) (by decide)).2.2 (by decide)⟩

/-- C4: pairwise distinctness of the worm's cells is preserved by every
Alive-returning `move_snake` call. -/
theorem nodup_preserved (pick : Nat) (level : LevelState)
    (hnd : level.snake.Nodup) (ha : (move_snake pick level).2.1 = true) :
    (move_snake pick level).1.snake.Nodup := by
  rw [move_snake_eq] at ha ⊢
  by_cases hb : in_bounds (next_head level)
  · rw [if_neg (not_not_intro hb)] at ha ⊢
    by_cases hm : next_head level ∈ level.snake
    · rw [if_pos hm] at ha
      simp at ha
    · rw [if_neg hm] at ha ⊢
      have hfull : (level.snake ++ [next_head level]).Nodup :=
        hnd.append (List.nodup_singleton _) (List.disjoint_singleton.mpr hm)
      by_cases hf : next_head level = level.food
      · rw [if_pos hf]
        exact hfull
      · rw [if_neg hf]
        exact List.Nodup.sublist (List.drop_sublist 1 _) hfull
  · rw [if_pos hb] at ha
    simp at ha

theorem nodup_preserved_witness :
    (move_snake 0 sampleMove).1.snake.Nodup :=
  nodup_preserved 0 sampleMove (by decide) (by decide)

/-- C5: a key request whose direction vector is the exact componentwise
negation of the active direction leaves the pending direction unchanged;
any other mapped direction vector becomes the new pending direction.
The opposition check compares against the active direction
(`level.direction`), never the pending one. -/
theorem direction_change_spec (level : LevelState) (key : Int) (candidate : Vec)
    (hk : VECTORS key = some candidate) :
    (candidate = (-level.direction.1, -level.direction.2) →
      handle_direction_change level key = level) ∧
    (candidate ≠ (-level.direction.1, -level.direction.2) →
      (handle_direction_change level key).pending_direction = candidate ∧
      (handle_direction_change level key).direction = level.direction) := by
  have hred : handle_direction_change level key =
      (if opposite_direction level.direction candidate then level
       else { level with pending_direction := candidate }) := by
    unfold handle_direction_change
    rw [hk]
  have hiff : opposite_direction level.direction candidate = true ↔
      candidate = (-level.direction.1, -level.direction.2) := by
    simp only [opposite_direction, Bool.and_eq_true, beq_iff_eq, Prod.ext_iff]
    omega
  rw [hred]
  by_cases hopp : opposite_direction level.direction candidate = true
  · rw [if_pos hopp]
    exact ⟨fun _ => rfl, fun hc => absurd (hiff.mp hopp) hc⟩
  · rw [if_neg hopp]
    exact ⟨fun hc => absurd (hiff.mpr hc) hopp, fun _ => ⟨rfl, rfl⟩⟩

theorem direction_change_spec_witness :
    (handle_direction_change sampleMove K_LEFT = sampleMove) ∧
    ((handle_direction_change sampleMove K_UP).pending_direction = (-1, 0) ∧
      (handle_direction_change sampleMove K_UP).direction = sampleMove.direction) :=
  ⟨(direction_change_spec sampleMove K_LEFT (0, -1) (by decide)).1 (by decide),
   (direction_change_spec sampleMove K_UP (-1, 0) (by decide)).2 (by decide)⟩

/-- C7: on every food-eating tick (Alive with `ate_food` true), the
eaten counter increases by exactly one and the replacement food is
placed over the updated occupancy: the new food cell is either the
"none available" sentinel `(-1, -1)` or not a member of the grown worm. -/
theorem eat_increments_and_food_fresh (pick : Nat) (level : LevelState)
    (_hne : level.snake ≠ []) (ha : (move_snake pick level).2.1 = true)
    (hf : (move_snake pick level).2.2 = true) :
    (move_snake pick level).1.eaten = level.eaten + 1 ∧
    ((move_snake pick level).1.food = (-1, -1) ∨
      (move_snake pick level).1.food ∉ (move_snake pick level).1.snake) := by
  rw [move_snake_eq] at ha hf ⊢
  by_cases hb : in_bounds (next_head level)
  · rw [if_neg (not_not_intro hb)] at ha hf ⊢
    by_cases hm : next_head level ∈ level.snake
    · rw [if_pos hm] at ha
      simp at ha
    · rw [if_neg hm] at ha hf ⊢
      by_cases hfood : next_head level = level.food
      · rw [if_pos hfood]
        refine ⟨rfl, ?_⟩
        rcases random_food_cases pick (level.snake ++ [next_head level]) with h | h
        · exact Or.inl h.2
        · exact Or.inr (mem_availablePositions.mp h.2).2
      · rw [if_neg hfood] at hf
        simp at hf
  · rw [if_pos hb] at ha
    simp at ha

theorem eat_increments_and_food_fresh_witness :
    (move_snake 0 sampleEat).1.eaten = sampleEat.eaten + 1 ∧
    ((move_snake 0 sampleEat).1.food = (-1, -1) ∨
      (move_snake 0 sampleEat).1.food ∉ (move_snake 0 sampleEat).1.snake) :=
  eat_increments_and_food_fresh 0 sampleEat (by decide) (by decide) (by decide)

/-- C8: `start_level` derives `speed = min(SPEED_MAX, baseSpeed +
(levelIndex - 1) * LEVEL_SPEED_STEP)` with `SPEED_MAX = 100` and
`LEVEL_SPEED_STEP = 5`, and `target = BASE_TARGET + (levelIndex - 1) *
TARGET_GROWTH` with `BASE_TARGET = 6` and `TARGET_GROWTH = 2` (target
never clamped); in particular level 1 at base speed 20 gives speed 20
and target 6, level 3 gives speed 30 and target 10, and level 20 gives
speed 100. -/
theorem derive_level_spec :
    (∀ (pick : Nat) (level base_speed : Int),
      (start_level pick level base_speed).speed =
        min SPEED_MAX (base_speed + (level - 1) * LEVEL_SPEED_STEP) ∧
      (start_level pick level base_speed).target =
        BASE_TARGET + (level - 1) * TARGET_GROWTH) ∧
    SPEED_MAX = 100 ∧ LEVEL_SPEED_STEP = 5 ∧ BASE_TARGET = 6 ∧ TARGET_GROWTH = 2 ∧
    (start_level 0 1 20).speed = 20 ∧ (start_level 0 1 20).target = 6 ∧
    (start_level 0 3 20).speed = 30 ∧ (start_level 0 3 20).target = 10 ∧
    (start_level 0 20 20).speed = 100 :=
  ⟨fun _ _ _ => ⟨rfl, rfl⟩, rfl, rfl, rfl, rfl,
   by decide, by decide, by decide, by decide, by decide⟩

/-- C6: `random_food` returns the sentinel `(-1, -1)` if and only if
every strictly interior cell is occupied; otherwise it returns a
strictly interior cell not in the occupied set, and when exactly one
interior cell is free it returns that cell for every random pick. -/
theorem place_food_spec (pick : Nat) (occupied : List Position) :
    (random_food pick occupied = (-1, -1) ↔
      ∀ p, strictly_interior p → p ∈ occupied) ∧
    (random_food pick occupied ≠ (-1, -1) →
      strictly_interior (random_food pick occupied) ∧
      random_food pick occupied ∉ occupied) ∧
    (∀ c, strictly_interior c → c ∉ occupied →
      (∀ p, strictly_interior p → p ∉ occupied → p = c) →
      random_food pick occupied = c) := by
  have hsent : random_food pick occupied = (-1, -1) ↔
      availablePositions occupied = [] := by
    rcases random_food_cases pick occupied with ⟨h1, h2⟩ | ⟨h1, h2⟩
    · simp [h1, h2]
    · constructor
      · intro he
        rw [he] at h2
        exact absurd (mem_availablePositions.mp h2).1 (by decide)
      · intro he
        exact absurd he h1
  refine ⟨?_, ?_, ?_⟩
  · rw [hsent, List.eq_nil_iff_forall_not_mem]
    constructor
    · intro h p hint
      by_contra hocc
      exact h p (mem_availablePositions.mpr ⟨hint, hocc⟩)
    · intro h p hp
      obtain ⟨hint, hocc⟩ := mem_availablePositions.mp hp
      exact hocc (h p hint)
  · intro hne
    rcases random_food_cases pick occupied with ⟨h1, _⟩ | ⟨_, h2⟩
    · exact absurd (hsent.mpr h1) hne
    · exact mem_availablePositions.mp h2
  · intro c hc hocc huniq
    have havail : availablePositions occupied = [c] := by
      refine eq_singleton_of_nodup_of_mem_iff (availablePositions_nodup occupied) ?_
      intro x
      constructor
      · intro hx
        obtain ⟨hint, hno⟩ := mem_availablePositions.mp hx
        exact huniq x hint hno
      · rintro rfl
        exact mem_availablePositions.mpr ⟨hc, hocc⟩
    unfold random_food
    rw [havail]
    simp [Nat.mod_one]

set_option maxRecDepth 100000 in
theorem place_food_spec_witness :
    (strictly_interior (random_food 0 []) ∧ random_food 0 [] ∉ ([] : List Position)) ∧
    random_food 0 ((availablePositions []).erase (3, 3)) = (3, 3) := by
  refine ⟨(place_food_spec 0 []).2.1 (by decide), ?_⟩
  refine (place_food_spec 0 _).2.2 (3, 3) (by decide)
    ((availablePositions_nodup []).not_mem_erase) ?_
  intro p hint hno
  by_contra hne
  exact hno ((List.mem_erase_of_ne hne).mpr (mem_availablePositions.mpr ⟨hint, by simp⟩))

end Worm
